import Mathlib

/-!
Shallow embedding of the voting application's vote ledger.

Sources embedded here:
- `server/db.ts` (src/unnamed/part_000): `getAllCandidates`, `hasVoted`,
  `addVote`, the candidate seeding routine, and the lazy `getDb` connection
  (modelled as a boolean `conn`: whether `getDb()` returned a connection).
- `drizzle/schema.ts`: the `candidates` and `votes` tables, including the
  foreign key from `votes.candidateId` to `candidates.id` and the
  auto-increment primary keys (modelled as `nextCandidateId` / `nextVoteId`).
- `server/routers.ts`: the tRPC procedures `voting.getCandidates`,
  `voting.hasVoted`, `voting.vote`, including their zod input validation and
  their error mapping (`message.includes("already voted")` ↦ BAD_REQUEST,
  everything else ↦ INTERNAL_SERVER_ERROR).

Individual store operations may fail at runtime (MySQL errors).  The `Faults`
record injects those failures: each flag says whether the corresponding store
operation succeeds during the call under consideration.  A thrown store error
is modelled by the `DbError` side of the result types.
-/

/-- A row of the `candidates` table: auto-increment `id`, `name`,
non-negative vote counter `votes` (DEFAULT 0). -/
structure Candidate where
  id : Int
  name : String
  votes : Nat
deriving Repr, DecidableEq

/-- A row of the `votes` table: auto-increment `id`, `candidateId`
(foreign key into `candidates`), opaque `voterIdentifier`. -/
structure Vote where
  id : Int
  candidateId : Int
  voterIdentifier : String
deriving Repr, DecidableEq

/-- The persistent store: the two tables plus their auto-increment counters. -/
structure Store where
  candidates : List Candidate
  votes : List Vote
  nextCandidateId : Int
  nextVoteId : Int
deriving Repr, DecidableEq

/-- Fault injection for a single db-layer call: each flag tells whether the
corresponding store operation succeeds (true) or throws (false). -/
structure Faults where
  selectCandidatesOk : Bool
  selectVotesOk : Bool
  insertVoteOk : Bool
  updateCandidateOk : Bool
  insertCandidatesOk : Bool
deriving Repr, DecidableEq

/-- The fault-free environment: every store operation succeeds. -/
def Faults.allOk : Faults := ⟨true, true, true, true, true⟩

/-- `getAllCandidates()` from db.ts: returns `[]` when the db connection is
unavailable, and also returns `[]` when the select throws (the catch block
swallows the error). -/
def getAllCandidates (conn : Bool) (f : Faults) (s : Store) : List Candidate :=
  if !conn then []
  else if !f.selectCandidatesOk then []
  else s.candidates

/-- `hasVoted(voterIdentifier)` from db.ts: `false` when the db connection is
unavailable, `false` when the select throws (the catch block swallows the
error), otherwise whether a `votes` row with that voter identifier exists
(`limit(1)` + `length > 0`). -/
def hasVoted (conn : Bool) (f : Faults) (s : Store) (voterIdentifier : String) : Bool :=
  if !conn then false
  else if !f.selectVotesOk then false
  else s.votes.any (fun v => v.voterIdentifier == voterIdentifier)

/-- The errors `addVote` can throw: the explicit
`Error("This device has already voted")`, a MySQL rejection of the vote
insert by the `votes.candidateId → candidates.id` foreign-key constraint,
and any other store-operation failure. -/
inductive DbError
  | alreadyVoted
  | fkViolation
  | storeFailure
deriving Repr, DecidableEq

/-- Result of `addVote`: the function returns `false` when the db connection
is unavailable (`noDb`), returns `true` on success (`ok`), or rethrows a
store error (`err`).  Each constructor carries the store state after the
call, since a throw after the vote insert leaves the inserted row behind. -/
inductive AddVoteResult
  | noDb (s : Store)
  | ok (s : Store)
  | err (e : DbError) (s : Store)
deriving Repr, DecidableEq

/-- The store state after an `addVote` call, whatever its outcome. -/
def AddVoteResult.store : AddVoteResult → Store
  | .noDb s => s
  | .ok s => s
  | .err _ s => s

/-- Whether an `addVote` call returned `true`. -/
def AddVoteResult.isOk : AddVoteResult → Bool
  | .ok _ => true
  | _ => false

/-- `db.insert(votes).values({candidateId, voterIdentifier})`: append a row
with the next auto-increment id. -/
def insertVoteRow (s : Store) (candidateId : Int) (voterIdentifier : String) : Store :=
  { s with
      votes := s.votes ++ [⟨s.nextVoteId, candidateId, voterIdentifier⟩],
      nextVoteId := s.nextVoteId + 1 }

/-- `db.update(candidates).set({votes: newVotes}).where(eq(candidates.id, candidateId))`:
write `newVotes` into every candidate row whose id matches. -/
def updateCandidateVotes (s : Store) (candidateId : Int) (newVotes : Nat) : Store :=
  { s with
      candidates := s.candidates.map
        (fun c => if c.id == candidateId then { c with votes := newVotes } else c) }

/-- `addVote(candidateId, voterIdentifier)` from db.ts:
returns `false` when the db connection is unavailable; then, inside the try
block: throws "already voted" if `hasVoted` reports an existing vote, inserts
the vote row (the MySQL foreign-key constraint rejects the insert when the
candidate id has no `candidates` row), re-reads the candidate by id
(`limit(1)`), and if found writes `found.votes + 1` back.  Any store
failure is rethrown by the catch block. -/
def addVote (conn : Bool) (f : Faults) (s : Store) (candidateId : Int)
    (voterIdentifier : String) : AddVoteResult :=
  if !conn then .noDb s
  else if hasVoted conn f s voterIdentifier then .err .alreadyVoted s
  else if !f.insertVoteOk then .err .storeFailure s
  else if !(s.candidates.any (fun c => c.id == candidateId)) then .err .fkViolation s
  else
    let s1 := insertVoteRow s candidateId voterIdentifier
    if !f.selectCandidatesOk then .err .storeFailure s1
    else
      match s1.candidates.find? (fun c => c.id == candidateId) with
      | none => .ok s1
      | some c =>
          if !f.updateCandidateOk then .err .storeFailure s1
          else .ok (updateCandidateVotes s1 candidateId (c.votes + 1))

/-- The fixed seed list from `initializeCandidates` in db.ts. -/
def seedNames : List String :=
  ["د أحمد حفظي", "مهندس أحمد سامي", "أ. أشرف الشبراوي",
   "لواء. سامح عبد الفتاح", "أ.د مكرم رضوان"]

/-- Rows produced by the seed insert, with consecutive auto-increment ids and
the `votes` column at its DEFAULT 0. -/
def mkSeed : Int → List String → List Candidate
  | _, [] => []
  | nid, n :: ns => ⟨nid, n, 0⟩ :: mkSeed (nid + 1) ns

/-- `initializeCandidates()` from db.ts (named `initCandidates` here): no-op
when the db connection is unavailable; selects the candidate table and
returns if it is non-empty; otherwise inserts the five seed rows.  The catch
block swallows every store error, so a failing select or insert also leaves
the store unchanged. -/
def initCandidates (conn : Bool) (f : Faults) (s : Store) : Store :=
  if !conn then s
  else if !f.selectCandidatesOk then s
  else if !s.candidates.isEmpty then s
  else if !f.insertCandidatesOk then s
  else { s with
           candidates := s.candidates ++ mkSeed s.nextCandidateId seedNames,
           nextCandidateId := s.nextCandidateId + (seedNames.length : Int) }

/-- Outcome of the `voting.vote` tRPC mutation at the boundary:
`success` carries the candidate list returned to the caller;
`validationError` is a zod rejection; `duplicateVote` is the BAD_REQUEST
raised when the caught error message includes "already voted";
`internalError` is the generic INTERNAL_SERVER_ERROR for every other
caught error. -/
inductive VoteOutcome
  | success (candidates : List Candidate)
  | validationError
  | duplicateVote
  | internalError
deriving Repr, DecidableEq

/-- zod input schema of `voting.vote`:
`candidateId: z.number().int().positive()`, `voterIdentifier: z.string().min(1)`. -/
def validVoteInput (candidateId : Int) (voterIdentifier : String) : Bool :=
  decide (0 < candidateId) && decide (1 ≤ voterIdentifier.length)

/-- The `voting.vote` mutation from routers.ts: validate the input, call
`addVote`, then `getAllCandidates`, and return `{success: true, candidates}`.
The boolean result of `addVote` is ignored, so a `noDb` result also reaches
the success return.  A caught error whose message includes "already voted"
becomes `duplicateVote`; every other caught error becomes `internalError`. -/
def routerVote (conn : Bool) (f : Faults) (s : Store) (candidateId : Int)
    (voterIdentifier : String) : VoteOutcome × Store :=
  if !(validVoteInput candidateId voterIdentifier) then (.validationError, s)
  else
    match addVote conn f s candidateId voterIdentifier with
    | .noDb s' => (.success (getAllCandidates conn f s'), s')
    | .ok s' => (.success (getAllCandidates conn f s'), s')
    | .err .alreadyVoted s' => (.duplicateVote, s')
    | .err .fkViolation s' => (.internalError, s')
    | .err .storeFailure s' => (.internalError, s')

/-- Outcome of the `voting.hasVoted` tRPC query at the boundary. -/
inductive HasVotedOutcome
  | ok (b : Bool)
  | validationError
deriving Repr, DecidableEq

/-- The `voting.hasVoted` query from routers.ts: its zod schema is
`z.object({ voterIdentifier: z.string() })` — any string is accepted, with no
minimum length — and the store read is performed unconditionally. -/
def routerHasVoted (conn : Bool) (f : Faults) (s : Store)
    (voterIdentifier : String) : HasVotedOutcome :=
  .ok (hasVoted conn f s voterIdentifier)

/-- The `voting.getCandidates` query from routers.ts: run the seeding routine,
then return `getAllCandidates` together with the resulting store state. -/
def routerGetCandidates (conn : Bool) (f : Faults) (s : Store) :
    List Candidate × Store :=
  let s' := initCandidates conn f s
  (getAllCandidates conn f s', s')

/-- A store with both tables empty and auto-increment counters at 1
(MySQL AUTO_INCREMENT starts at 1). -/
def emptyStore : Store := ⟨[], [], 1, 1⟩

/-- The store after a first successful run of the seeding routine. -/
def seededStore : Store := initCandidates true Faults.allOk emptyStore

/-- Primary-key well-formedness of the candidate table: `candidates.id` is a
primary key, so the ids are pairwise distinct. -/
def Store.wf (s : Store) : Prop :=
  (s.candidates.map Candidate.id).Nodup

/-- Tally consistency: each candidate's denormalized counter equals the
number of vote rows referencing it. -/
def TallyInv (s : Store) : Prop :=
  ∀ c ∈ s.candidates, c.votes = s.votes.countP (fun vt => vt.candidateId == c.id)

/-- One request environment for a sequence of `addVote` calls: whether the
connection was available for that call, which store operations succeed during
it, and the call's arguments. -/
structure CallEnv where
  conn : Bool
  f : Faults
  candidateId : Int
  voterIdentifier : String
deriving Repr, DecidableEq

/-- Run a sequence of `addVote` calls, threading the store state through,
whatever each call's outcome. -/
def addVoteSeq (calls : List CallEnv) (s : Store) : Store :=
  match calls with
  | [] => s
  | c :: rest =>
      addVoteSeq rest ((addVote c.conn c.f s c.candidateId c.voterIdentifier).store)

/-- Run a sequence of `addVote` calls in which no call throws: a call that
throws aborts the run (`none`).  Calls returning `false` because the
connection is unavailable leave the store untouched and are kept, matching the
boundary's view of them as non-failures. -/
def addVoteOkSeq : List CallEnv → Store → Option Store
  | [], s => some s
  | c :: rest, s =>
      match addVote c.conn c.f s c.candidateId c.voterIdentifier with
      | .ok s' => addVoteOkSeq rest s'
      | .noDb s' => addVoteOkSeq rest s'
      | .err _ _ => none

/-- Claim C2: a voter identifier that already has a Vote row is rejected:
`addVote` throws the "already voted" error (provided the existence read
succeeds), the store is unchanged (no Vote row created, no count changed),
and the `voting.vote` route maps the error to the distinct `duplicateVote`
outcome (BAD_REQUEST), distinguishable from `internalError`. -/
theorem duplicate_vote_rejected (f : Faults) (s : Store) (cid : Int) (V : String)
    (hsel : f.selectVotesOk = true)
    (hv : s.votes.any (fun vt => vt.voterIdentifier == V) = true) :
    addVote true f s cid V = .err .alreadyVoted s ∧
    (validVoteInput cid V = true → routerVote true f s cid V = (.duplicateVote, s)) := by
  have hhv : hasVoted true f s V = true := by
    simp [hasVoted, hsel, hv]
  have h1 : addVote true f s cid V = .err .alreadyVoted s := by
    simp [addVote, hhv]
  exact ⟨h1, fun hval => by simp [routerVote, hval, h1]⟩

/-- Witness for C2 at a concrete store: one candidate, one existing vote by
"v1"; a second vote by "v1" is rejected as a duplicate and changes nothing. -/
theorem duplicate_vote_rejected_witness :
    addVote true Faults.allOk ⟨[⟨1, "A", 1⟩], [⟨1, 1, "v1"⟩], 2, 2⟩ 1 "v1" =
      .err .alreadyVoted ⟨[⟨1, "A", 1⟩], [⟨1, 1, "v1"⟩], 2, 2⟩ ∧
    routerVote true Faults.allOk ⟨[⟨1, "A", 1⟩], [⟨1, 1, "v1"⟩], 2, 2⟩ 1 "v1" =
      (.duplicateVote, ⟨[⟨1, "A", 1⟩], [⟨1, 1, "v1"⟩], 2, 2⟩) := by
  obtain ⟨h1, h2⟩ := duplicate_vote_rejected Faults.allOk
    ⟨[⟨1, "A", 1⟩], [⟨1, 1, "v1"⟩], 2, 2⟩ 1 "v1" rfl (by decide)
  exact ⟨h1, h2 (by decide)⟩

/-- Claim C4: a candidate id with no `candidates` row makes the vote insert
fail on the `votes.candidateId → candidates.id` foreign-key constraint: the
error propagates out of `addVote` (not swallowed, not success), no Vote row
is created (the store is unchanged), and the route reports the failure
(`internalError`, the generic collapse the spec permits for non-duplicate
failures). -/
theorem unknown_candidate_rejected (f : Faults) (s : Store) (cid : Int) (V : String)
    (hins : f.insertVoteOk = true)
    (hcand : s.candidates.any (fun c => c.id == cid) = false)
    (hfresh : s.votes.any (fun vt => vt.voterIdentifier == V) = false) :
    addVote true f s cid V = .err .fkViolation s ∧
    (validVoteInput cid V = true → routerVote true f s cid V = (.internalError, s)) := by
  have hhv : hasVoted true f s V = false := by
    cases hsel : f.selectVotesOk <;> simp [hasVoted, hsel, hfresh]
  have h1 : addVote true f s cid V = .err .fkViolation s := by
    simp [addVote, hhv, hins, hcand]
  exact ⟨h1, fun hval => by simp [routerVote, hval, h1]⟩

/-- Witness for C4: voting for candidate id 999 on the freshly seeded store
fails with the foreign-key rejection and leaves the store unchanged. -/
theorem unknown_candidate_rejected_witness :
    addVote true Faults.allOk seededStore 999 "v1" = .err .fkViolation seededStore ∧
    routerVote true Faults.allOk seededStore 999 "v1" = (.internalError, seededStore) := by
  obtain ⟨h1, h2⟩ := unknown_candidate_rejected Faults.allOk seededStore 999 "v1"
    rfl (by decide) (by decide)
  exact ⟨h1, h2 (by decide)⟩

/-- Claim C5, evaluated at the failing input: with the db connection
unavailable, `addVote` returns `false` instead of throwing, and the
`voting.vote` route — which ignores that boolean — reports
`{success: true, candidates: []}` to the caller instead of surfacing a
StoreUnavailable failure. -/
theorem store_unavailable_reported_as_success :
    addVote false Faults.allOk seededStore 1 "v1" = .noDb seededStore ∧
    routerVote false Faults.allOk seededStore 1 "v1" =
      (.success [], seededStore) := by
  decide

/-- Claim C8: the two read operations degrade instead of raising: with the
connection unavailable `getAllCandidates` returns `[]` and `hasVoted` returns
`false`, and the same holds when the connection exists but the respective
select throws (the catch blocks swallow the error).  Both are total
functions into plain values, so no error reaches the caller. -/
theorem read_path_degradation (f : Faults) (s : Store) (V : String) :
    getAllCandidates false f s = [] ∧ hasVoted false f s V = false ∧
    (f.selectCandidatesOk = false → getAllCandidates true f s = []) ∧
    (f.selectVotesOk = false → hasVoted true f s V = false) := by
  refine ⟨rfl, rfl, ?_, ?_⟩ <;> intro h <;> simp [getAllCandidates, hasVoted, h]

/-- Witness for C8 at a concrete faulty environment and store. -/
theorem read_path_degradation_witness :
    getAllCandidates false ⟨false, false, true, true, true⟩ seededStore = [] ∧
    hasVoted false ⟨false, false, true, true, true⟩ seededStore "v1" = false ∧
    getAllCandidates true ⟨false, false, true, true, true⟩ seededStore = [] ∧
    hasVoted true ⟨false, false, true, true, true⟩ seededStore "v1" = false := by
  obtain ⟨h1, h2, h3, h4⟩ :=
    read_path_degradation ⟨false, false, true, true, true⟩ seededStore "v1"
  exact ⟨h1, h2, h3 rfl, h4 rfl⟩

/-- Counterexample to claim C9 as stated: the `voting.hasVoted` route does
not reject the malformed (empty) voter identifier — its zod schema is
`z.string()` with no minimum length — and instead performs the store read:
on a store holding a vote row whose identifier is the empty string it answers
`true`, on the empty store `false`; it never returns a validation error. -/
theorem boundary_validation_counterexample :
    routerHasVoted true Faults.allOk ⟨[⟨1, "A", 1⟩], [⟨1, 1, ""⟩], 2, 2⟩ "" =
      .ok true ∧
    routerHasVoted true Faults.allOk emptyStore "" = .ok false := by
  decide

/-- Claim C9 (amended): the `voting.vote` mutation rejects malformed input
(non-positive candidate id or empty voter identifier) with a validation
error before any store access — uniformly in the connection, fault and store
state, leaving the store untouched — while the `voting.hasVoted` query
performs no validation on its voter identifier and passes every string,
including the empty one, through to the store existence read. -/
theorem boundary_validation (conn : Bool) (f : Faults) (s : Store) (cid : Int)
    (V : String) (hbad : cid ≤ 0 ∨ V.length = 0) :
    routerVote conn f s cid V = (.validationError, s) ∧
    routerHasVoted conn f s V = .ok (hasVoted conn f s V) := by
  refine ⟨?_, rfl⟩
  have hval : validVoteInput cid V = false := by
    rcases hbad with h | h
    · have hd : decide (0 < cid) = false := decide_eq_false (by omega)
      simp [validVoteInput, hd]
    · have hd : decide (1 ≤ V.length) = false := decide_eq_false (by omega)
      simp [validVoteInput, hd]
  simp [routerVote, hval]

/-- Witness for the amended C9: candidate id 0 is rejected as a validation
error with no store effect, and `voting.hasVoted` passes the empty voter
identifier straight to the store read. -/
theorem boundary_validation_witness :
    routerVote true Faults.allOk seededStore 0 "" = (.validationError, seededStore) ∧
    routerHasVoted true Faults.allOk seededStore "" =
      .ok (hasVoted true Faults.allOk seededStore "") :=
  boundary_validation true Faults.allOk seededStore 0 "" (Or.inl (by decide))

/-- Any `addVote` call leaves the vote table unchanged, or appends exactly
one row carrying its arguments — and in the latter case the connection was
available and the duplicate check reported "has not voted". -/
theorem addVote_store_votes (conn : Bool) (f : Faults) (s : Store) (cid : Int)
    (vid : String) :
    (addVote conn f s cid vid).store.votes = s.votes ∨
    ((addVote conn f s cid vid).store.votes = s.votes ++ [⟨s.nextVoteId, cid, vid⟩] ∧
      conn = true ∧ hasVoted conn f s vid = false) := by
  unfold addVote
  cases conn with
  | false => left; rfl
  | true =>
    cases hhv : hasVoted true f s vid with
    | true => left; simp [AddVoteResult.store]
    | false =>
      cases hins : f.insertVoteOk with
      | false => left; simp [AddVoteResult.store]
      | true =>
        cases hany : s.candidates.any (fun c => c.id == cid) with
        | false => left; simp [AddVoteResult.store]
        | true =>
          right
          refine ⟨?_, rfl, rfl⟩
          cases hsel : f.selectCandidatesOk with
          | false => simp [AddVoteResult.store, insertVoteRow]
          | true =>
            cases hf : s.candidates.find? (fun c => c.id == cid) with
            | none => simp [hf, AddVoteResult.store, insertVoteRow]
            | some c =>
              cases hupd : f.updateCandidateOk with
              | false => simp [hf, AddVoteResult.store, insertVoteRow]
              | true =>
                simp [hf, AddVoteResult.store, insertVoteRow, updateCandidateVotes]

/-- One `addVote` call keeps every voter identifier's row count at most 1,
provided the call's vote-existence read succeeds. -/
theorem countP_voter_addVote_le (conn : Bool) (f : Faults) (s : Store) (cid : Int)
    (vid V : String) (hsel : f.selectVotesOk = true)
    (hs : s.votes.countP (fun vt => vt.voterIdentifier == V) ≤ 1) :
    ((addVote conn f s cid vid).store).votes.countP
      (fun vt => vt.voterIdentifier == V) ≤ 1 := by
  rcases addVote_store_votes conn f s cid vid with h | ⟨h, hconn, hhv⟩
  · rw [h]; exact hs
  · rw [h, List.countP_append]
    subst hconn
    have hany : s.votes.any (fun v => v.voterIdentifier == vid) = false := by
      simpa [hasVoted, hsel] using hhv
    by_cases hvv : vid = V
    · subst hvv
      have h0 : s.votes.countP (fun vt => vt.voterIdentifier == vid) = 0 :=
        List.countP_eq_zero.mpr (List.any_eq_false.mp hany)
      simp [h0, List.countP_cons]
    · have hbeq : (vid == V) = false := beq_eq_false_iff_ne.mpr hvv
      simpa [List.countP_cons, hbeq] using hs

/-- Claim C1 (amended): for every voter identifier V, in every store state
reachable by a sequence of `addVote` calls in each of which the store's
vote-existence read succeeds, starting from a store with at most one Vote
row per identifier, at most one Vote row exists with voter identifier V,
across all candidates. -/
theorem one_vote_invariant (calls : List CallEnv) (s : Store)
    (hf : ∀ c ∈ calls, c.f.selectVotesOk = true)
    (hs : ∀ V, s.votes.countP (fun vt => vt.voterIdentifier == V) ≤ 1) :
    ∀ V, (addVoteSeq calls s).votes.countP (fun vt => vt.voterIdentifier == V) ≤ 1 := by
  induction calls generalizing s with
  | nil => exact hs
  | cons c rest ih =>
    exact ih _ (fun c' hc' => hf c' (List.mem_cons_of_mem _ hc'))
      (fun V => countP_voter_addVote_le c.conn c.f s c.candidateId c.voterIdentifier V
        (hf c (List.mem_cons_self _ _)) (hs V))

/-- Witness for the amended C1: two same-voter calls against the seeded
store, both with healthy reads, leave at most one "v1" row. -/
theorem one_vote_invariant_witness :
    (addVoteSeq [⟨true, Faults.allOk, 1, "v1"⟩, ⟨true, Faults.allOk, 2, "v1"⟩]
        seededStore).votes.countP (fun vt => vt.voterIdentifier == "v1") ≤ 1 :=
  one_vote_invariant [⟨true, Faults.allOk, 1, "v1"⟩, ⟨true, Faults.allOk, 2, "v1"⟩]
    seededStore (by decide) (fun V => by simp [show seededStore.votes = [] from rfl])
    "v1"

/-- Counterexample to claim C1 as stated: a two-call sequence of `addVote`
(the second call's vote-existence read failing, so its duplicate check
degrades to "has not voted") reaches a store state holding two Vote rows for
voter identifier "v1". -/
theorem one_vote_invariant_counterexample :
    (addVoteSeq [⟨true, Faults.allOk, 1, "v1"⟩, ⟨true, ⟨true, false, true, true, true⟩, 1, "v1"⟩]
        seededStore).votes.countP (fun vt => vt.voterIdentifier == "v1") = 2 := by
  decide

/-- The seeding routine never touches a non-empty candidate table. -/
theorem initCandidates_of_nonempty (conn : Bool) (f : Faults) (s : Store)
    (h : s.candidates ≠ []) : initCandidates conn f s = s := by
  have hie : s.candidates.isEmpty = false := by
    cases hc : s.candidates with
    | nil => exact absurd hc h
    | cons a l => rfl
  simp [initCandidates, hie]

/-- A run of the seeding routine either leaves the store unchanged or leaves
the candidate table non-empty. -/
theorem initCandidates_result (conn : Bool) (f : Faults) (s : Store) :
    initCandidates conn f s = s ∨ (initCandidates conn f s).candidates ≠ [] := by
  unfold initCandidates
  cases conn with
  | false => left; rfl
  | true =>
    cases hs : f.selectCandidatesOk with
    | false => left; simp
    | true =>
      cases he : s.candidates.isEmpty with
      | false => left; simp [he]
      | true =>
        cases hi : f.insertCandidatesOk with
        | false => left; simp [he, hi]
        | true =>
          right
          have hnil : s.candidates = [] := List.isEmpty_iff.mp he
          simp [he, hi, hnil, seedNames, mkSeed]

/-- Seeding is idempotent: a second run changes nothing. -/
theorem initCandidates_idem (conn : Bool) (f : Faults) (s : Store) :
    initCandidates conn f (initCandidates conn f s) = initCandidates conn f s := by
  rcases initCandidates_result conn f s with h | h
  · rw [h]; exact h
  · exact initCandidates_of_nonempty conn f _ h

/-- Iterating the seeding routine any positive number of times equals running
it once. -/
theorem initCandidates_iterate (conn : Bool) (f : Faults) (s : Store) (n : Nat) :
    (initCandidates conn f)^[n + 1] s = initCandidates conn f s := by
  induction n generalizing s with
  | zero => rfl
  | succ n ih =>
    rw [Function.iterate_succ_apply, ih]
    exact initCandidates_idem conn f s

/-- Claim C7: seeding runs only when the candidate table is empty (a
non-empty table is left untouched); a first successful run inserts exactly
the five fixed candidates, each with zero votes; and running the seeding
routine — or the `voting.getCandidates` route that wraps it — any number
N ≥ 1 of times in a row yields the same store as running it once: it never
re-seeds or duplicates. -/
theorem idempotent_seeding :
    (∀ conn f s, s.candidates ≠ [] → initCandidates conn f s = s) ∧
    (seededStore.candidates = mkSeed 1 seedNames ∧
      seededStore.candidates.length = 5 ∧
      ∀ c ∈ seededStore.candidates, c.votes = 0) ∧
    (∀ conn f s n, (initCandidates conn f)^[n + 1] s = initCandidates conn f s) ∧
    (∀ conn f s n,
      (fun st => (routerGetCandidates conn f st).2)^[n + 1] s =
        initCandidates conn f s) := by
  refine ⟨initCandidates_of_nonempty, ⟨by decide, by decide, by decide⟩,
    initCandidates_iterate, ?_⟩
  intro conn f s n
  exact initCandidates_iterate conn f s n

/-- Witness for C7: the already-seeded store is left unchanged, and three
runs in a row from the empty store equal one run. -/
theorem idempotent_seeding_witness :
    initCandidates true Faults.allOk seededStore = seededStore ∧
    (initCandidates true Faults.allOk)^[3] emptyStore =
      initCandidates true Faults.allOk emptyStore := by
  obtain ⟨h1, _h2, h3, _h4⟩ := idempotent_seeding
  exact ⟨h1 true Faults.allOk seededStore (by decide), h3 true Faults.allOk emptyStore 2⟩

/-- Exhaustive description of what one `addVote` call can do: `false` without
a connection; a throw before the insert (state unchanged); a throw after the
insert (the vote row is left behind); or success, in which case the inserted
row's candidate exists and its counter is rewritten to `found.votes + 1`. -/
theorem addVote_cases (conn : Bool) (f : Faults) (s : Store) (cid : Int)
    (vid : String) :
    (conn = false ∧ addVote conn f s cid vid = .noDb s) ∨
    (∃ e, addVote conn f s cid vid = .err e s) ∨
    (∃ e, addVote conn f s cid vid = .err e (insertVoteRow s cid vid)) ∨
    (∃ c, c ∈ s.candidates ∧ (c.id == cid) = true ∧
      addVote conn f s cid vid =
        .ok (updateCandidateVotes (insertVoteRow s cid vid) cid (c.votes + 1))) := by
  unfold addVote
  cases conn with
  | false => exact Or.inl ⟨rfl, rfl⟩
  | true =>
    cases hhv : hasVoted true f s vid with
    | true => exact Or.inr (Or.inl ⟨.alreadyVoted, by simp⟩)
    | false =>
      cases hins : f.insertVoteOk with
      | false => exact Or.inr (Or.inl ⟨.storeFailure, by simp⟩)
      | true =>
        cases hany : s.candidates.any (fun c => c.id == cid) with
        | false => exact Or.inr (Or.inl ⟨.fkViolation, by simp⟩)
        | true =>
          cases hsel : f.selectCandidatesOk with
          | false => exact Or.inr (Or.inr (Or.inl ⟨.storeFailure, by simp [insertVoteRow]⟩))
          | true =>
            cases hf : s.candidates.find? (fun c => c.id == cid) with
            | none =>
              exfalso
              obtain ⟨x, hx, hpx⟩ := List.any_eq_true.mp hany
              exact (List.find?_eq_none.mp hf x hx) hpx
            | some c =>
              have hcmem : c ∈ s.candidates := List.mem_of_find?_eq_some hf
              have hcid : (c.id == cid) = true := by simpa using List.find?_some hf
              cases hupd : f.updateCandidateOk with
              | false =>
                exact Or.inr (Or.inr (Or.inl ⟨.storeFailure, by simp [hf, insertVoteRow]⟩))
              | true =>
                refine Or.inr (Or.inr (Or.inr ⟨c, hcmem, hcid, ?_⟩))
                simp [hf, insertVoteRow, updateCandidateVotes]

/-- `addVote` returns `false` only when the connection is unavailable, in
which case the store is untouched. -/
theorem addVote_noDb_eq (conn : Bool) (f : Faults) (s : Store) (cid : Int)
    (vid : String) (s' : Store) (h : addVote conn f s cid vid = .noDb s') :
    s' = s := by
  rcases addVote_cases conn f s cid vid with ⟨_, he⟩ | ⟨e, he⟩ | ⟨e, he⟩ | ⟨c, _, _, he⟩
  · rw [he] at h; injection h with h'; exact h'.symm
  · rw [he] at h; simp at h
  · rw [he] at h; simp at h
  · rw [he] at h; simp at h

/-- Inserting a vote row for candidate `cid` and then rewriting that
candidate's counter to `found.votes + 1` preserves tally consistency, given
primary-key uniqueness of candidate ids. -/
theorem tally_insert_update (s : Store) (cid : Int) (vid : String) (c : Candidate)
    (hwf : Store.wf s) (ht : TallyInv s) (hc : c ∈ s.candidates) (hcid : c.id = cid) :
    TallyInv (updateCandidateVotes (insertVoteRow s cid vid) cid (c.votes + 1)) := by
  intro d hd
  simp only [updateCandidateVotes, insertVoteRow, List.mem_map] at hd
  obtain ⟨d0, hd0, hgd⟩ := hd
  simp only [updateCandidateVotes, insertVoteRow]
  rw [List.countP_append]
  by_cases hdc : d0.id = cid
  · have hceq : c = d0 := List.inj_on_of_nodup_map hwf hc hd0 (by rw [hcid, hdc])
    subst hceq
    have hbeq : (c.id == cid) = true := beq_iff_eq.mpr hcid
    simp only [hbeq, if_true] at hgd
    subst hgd
    have hcv := ht c hc
    have hbeq2 : (cid == c.id) = true := beq_iff_eq.mpr hcid.symm
    simp [List.countP_cons, hbeq2, ← hcv]
  · have hbeq : (d0.id == cid) = false := beq_eq_false_iff_ne.mpr hdc
    simp only [hbeq, Bool.false_eq_true, if_false] at hgd
    subst hgd
    have hdv := ht d0 hd0
    have hbeq2 : (cid == d0.id) = false :=
      beq_eq_false_iff_ne.mpr (fun h => hdc h.symm)
    simp [List.countP_cons, hbeq2, hdv]

/-- The insert-then-update write path does not change candidate ids, so
primary-key uniqueness of candidate ids is preserved. -/
theorem wf_insert_update (s : Store) (cid : Int) (vid : String) (n : Nat)
    (hwf : Store.wf s) :
    Store.wf (updateCandidateVotes (insertVoteRow s cid vid) cid n) := by
  unfold Store.wf at *
  simp only [updateCandidateVotes, insertVoteRow]
  rw [List.map_map]
  have hcomp :
      (Candidate.id ∘ fun c => if c.id == cid then { c with votes := n } else c) =
        Candidate.id := by
    funext c
    by_cases h : c.id = cid
    · simp [Function.comp, beq_iff_eq.mpr h]
    · simp [Function.comp, beq_eq_false_iff_ne.mpr h]
  rw [hcomp]
  exact hwf

/-- A successful `addVote` call preserves tally consistency and primary-key
uniqueness. -/
theorem addVote_ok_tally (conn : Bool) (f : Faults) (s : Store) (cid : Int)
    (vid : String) (s' : Store) (hwf : Store.wf s) (ht : TallyInv s)
    (h : addVote conn f s cid vid = .ok s') : TallyInv s' ∧ Store.wf s' := by
  rcases addVote_cases conn f s cid vid with ⟨_, he⟩ | ⟨e, he⟩ | ⟨e, he⟩ | ⟨c, hcmem, hcid, he⟩
  · rw [he] at h; simp at h
  · rw [he] at h; simp at h
  · rw [he] at h; simp at h
  · rw [he] at h
    injection h with h'
    subst h'
    have hcideq : c.id = cid := beq_iff_eq.mp hcid
    exact ⟨tally_insert_update s cid vid c hwf ht hcmem hcideq,
           wf_insert_update s cid vid (c.votes + 1) hwf⟩

/-- A run of throw-free `addVote` calls preserves tally consistency and
primary-key uniqueness. -/
theorem tally_wf_okSeq (calls : List CallEnv) (s s' : Store) (hwf : Store.wf s)
    (ht : TallyInv s) (h : addVoteOkSeq calls s = some s') :
    TallyInv s' ∧ Store.wf s' := by
  induction calls generalizing s with
  | nil =>
    simp [addVoteOkSeq] at h
    subst h
    exact ⟨ht, hwf⟩
  | cons c rest ih =>
    rw [addVoteOkSeq] at h
    cases hres : addVote c.conn c.f s c.candidateId c.voterIdentifier with
    | noDb s1 =>
      rw [hres] at h
      have h1 : s1 = s := addVote_noDb_eq c.conn c.f s c.candidateId c.voterIdentifier s1 hres
      subst h1
      exact ih s1 hwf ht h
    | ok s1 =>
      rw [hres] at h
      obtain ⟨ht1, hwf1⟩ :=
        addVote_ok_tally c.conn c.f s c.candidateId c.voterIdentifier s1 hwf ht hres
      exact ih s1 hwf1 ht1 h
    | err e s1 =>
      rw [hres] at h
      exact Option.noConfusion h

/-- Claim C3: after every sequence of successful `addVote` calls starting
from the seeded store, each candidate's vote counter equals the number of
Vote rows whose candidateId references that candidate. -/
theorem tally_consistency (calls : List CallEnv) (s' : Store)
    (h : addVoteOkSeq calls seededStore = some s') : TallyInv s' :=
  (tally_wf_okSeq calls seededStore s' (by unfold Store.wf; decide)
    (by unfold TallyInv; decide) h).1

/-- Witness for C3: one successful vote on the seeded store leaves the
counters matching the vote rows. -/
theorem tally_consistency_witness :
    TallyInv ((addVote true Faults.allOk seededStore 1 "v1").store) :=
  tally_consistency [⟨true, Faults.allOk, 1, "v1"⟩]
    ((addVote true Faults.allOk seededStore 1 "v1").store) (by rfl)

/-- Claim C6: for an existing candidate (with a boundary-valid positive id),
a fresh voter identifier and a healthy store, the `voting.vote` route
succeeds and returns the full refreshed candidate set in which exactly that
candidate's counter is one greater and every other candidate is unchanged. -/
theorem castVote_success (s : Store) (c : Candidate) (V : String)
    (hwf : Store.wf s) (hc : c ∈ s.candidates) (hid : 0 < c.id) (hV : 1 ≤ V.length)
    (hfresh : s.votes.any (fun vt => vt.voterIdentifier == V) = false) :
    (routerVote true Faults.allOk s c.id V).1 =
      .success (s.candidates.map
        (fun d => if d.id = c.id then { d with votes := d.votes + 1 } else d)) := by
  have hval : validVoteInput c.id V = true := by
    simp [validVoteInput, hid, hV]
  have hany : s.candidates.any (fun d => d.id == c.id) = true :=
    List.any_eq_true.mpr ⟨c, hc, by simp⟩
  have hfs : (s.candidates.find? (fun d => d.id == c.id)).isSome :=
    List.find?_isSome.mpr ⟨c, hc, by simp⟩
  obtain ⟨c', hf⟩ := Option.isSome_iff_exists.mp hfs
  have hc'id : c'.id = c.id := beq_iff_eq.mp (by simpa using List.find?_some hf)
  have hc'c : c' = c :=
    List.inj_on_of_nodup_map hwf (List.mem_of_find?_eq_some hf) hc hc'id
  subst hc'c
  have haddv : addVote true Faults.allOk s c'.id V =
      .ok (updateCandidateVotes (insertVoteRow s c'.id V) c'.id (c'.votes + 1)) := by
    simp [addVote, hasVoted, Faults.allOk, hfresh, hany, hf, insertVoteRow,
      updateCandidateVotes]
  have hrv : routerVote true Faults.allOk s c'.id V =
      (.success (getAllCandidates true Faults.allOk
        (updateCandidateVotes (insertVoteRow s c'.id V) c'.id (c'.votes + 1))),
       updateCandidateVotes (insertVoteRow s c'.id V) c'.id (c'.votes + 1)) := by
    unfold routerVote
    rw [haddv]
    simp [hval]
  rw [hrv]
  simp only [getAllCandidates, Faults.allOk, updateCandidateVotes, insertVoteRow]
  simp only [Bool.not_true, Bool.false_eq_true, if_false, VoteOutcome.success.injEq]
  apply List.map_congr_left
  intro a ha
  by_cases hdc : a.id = c'.id
  · have haeq : a = c' := List.inj_on_of_nodup_map hwf ha hc hdc
    subst haeq
    simp
  · simp [hdc, beq_eq_false_iff_ne.mpr hdc]

/-- Witness for C6: voting for the first seeded candidate with fresh voter
"v1" returns the candidate list with exactly that candidate at one vote. -/
theorem castVote_success_witness :
    (routerVote true Faults.allOk seededStore (1 : Int) "v1").1 =
      .success (seededStore.candidates.map
        (fun d => if d.id = (1 : Int) then { d with votes := d.votes + 1 } else d)) :=
  castVote_success seededStore ⟨1, "د أحمد حفظي", 0⟩ "v1"
    (by unfold Store.wf; decide) (by decide) (by decide) (by decide) (by decide)

/-- Claim C10: there is a store state and fault environment in which the
duplicate-check read errors (so `hasVoted` degrades to `false`), the voter
identifier already has a Vote row, and `addVote` inserts a second Vote row
for that identifier and returns `true`; the route then reports success.
Exhibited concretely: a store with one candidate and one existing "v1" vote,
with the votes-select failing during the call. -/
theorem degraded_duplicate_check_double_vote :
    hasVoted true Faults.allOk ⟨[⟨1, "A", 1⟩], [⟨1, 1, "v1"⟩], 2, 2⟩ "v1" = true ∧
    hasVoted true ⟨true, false, true, true, true⟩
      ⟨[⟨1, "A", 1⟩], [⟨1, 1, "v1"⟩], 2, 2⟩ "v1" = false ∧
    (addVote true ⟨true, false, true, true, true⟩
      ⟨[⟨1, "A", 1⟩], [⟨1, 1, "v1"⟩], 2, 2⟩ 1 "v1").isOk = true ∧
    ((addVote true ⟨true, false, true, true, true⟩
      ⟨[⟨1, "A", 1⟩], [⟨1, 1, "v1"⟩], 2, 2⟩ 1 "v1").store).votes.countP
        (fun vt => vt.voterIdentifier == "v1") = 2 ∧
    (routerVote true ⟨true, false, true, true, true⟩
      ⟨[⟨1, "A", 1⟩], [⟨1, 1, "v1"⟩], 2, 2⟩ 1 "v1").1 =
      .success ((addVote true ⟨true, false, true, true, true⟩
        ⟨[⟨1, "A", 1⟩], [⟨1, 1, "v1"⟩], 2, 2⟩ 1 "v1").store).candidates := by
  decide
